import Mathlib

/-!
Verification development for the RISC OS Phoenix process/memory core
(`src/kernel/sched.c`, `src/kernel/mmu.c`, `src/kernel/irq.c`,
`src/kernel/task.c`).

The C sources are shallowly embedded: intrusive doubly-linked run queues
become Lean lists of task ids over a task store, the per-core scheduler
array becomes an explicit state record, page tables become a node heap
addressed by allocation order, and machine words become `Nat` (the bit
fields of a page-table entry are modelled as named `Bool` fields of a
structure, one per bit range of the C entry word).

Code that the repository only declares but does not define under
`src/` (the physical-page reference table `page_ref_inc`/`page_ref_dec`,
`handle_cow_fault`, `mmu_free_usermemory`, and the tails of the two
truncated files `mmu.c` and `task.c`) is modelled from the design
document; each such definition carries a doc comment starting with
"Modelled from the spec:".
-/

namespace Phoenix

/-! ## Scheduler data model (sched.c, kernel.h) -/

/-- `task_state_t` from kernel.h. -/
inductive TaskState where
  | running
  | ready
  | blocked
  | zombie
deriving DecidableEq, Repr

/-- The scheduler-relevant fields of `struct task` (kernel.h):
static priority, state, CPU-affinity bitmask. Tasks are addressed by a
stable id (the intrusive `next`/`prev` pointers of the C list are
replaced by lists of ids, per the design notes). -/
structure STask where
  priority : Nat
  state : TaskState
  affinity : Nat
deriving Repr

/-- One `cpu_sched_t` (sched.c lines 11–19): run queue (head first),
current task, idle task, schedule counter. The spinlock is mutual
exclusion only and has no sequential content. -/
structure Core where
  runqueue : List Nat
  current : Nat
  idle : Nat
  scheduleCount : Nat
deriving Repr

/-- IPI kind constants from irq.c lines 40–41. -/
def IPI_TLB_SHOOTDOWN : Nat := 1
def IPI_RESCHEDULE : Nat := 2

/-- Whole scheduler state: the task store, the per-core `cpu_sched`
array, and a log of `send_ipi(mask, kind, arg)` calls issued by the
scheduler (most recent first). -/
structure Sched where
  tasks : Nat → STask
  cores : Nat → Core
  ipis : List (Nat × Nat × Nat)

/-- Point update of the task store. -/
def setTask (σ : Sched) (t : Nat) (v : STask) : Sched :=
  { σ with tasks := fun t' => if t' = t then v else σ.tasks t' }

/-- `task->state = s`. -/
def setState (σ : Sched) (t : Nat) (s : TaskState) : Sched :=
  setTask σ t { σ.tasks t with state := s }

/-- Point update of the per-core array. -/
def setCore (σ : Sched) (c : Nat) (v : Core) : Sched :=
  { σ with cores := fun c' => if c' = c then v else σ.cores c' }

/-- The insertion loop of `enqueue_task` (sched.c lines 64–81): walk
the queue while `pos->priority <= task->priority`, then link the new
task before the first strictly higher-priority-value node. -/
def enqueue_insert (p : Nat → Nat) (t : Nat) : List Nat → List Nat
  | [] => [t]
  | x :: xs => if p x ≤ p t then x :: enqueue_insert p t xs else t :: x :: xs

/-- `enqueue_task` (sched.c lines 54–82): sets the task READY and
inserts it into the priority-ordered run queue of core `c`. -/
def enqueue_task (σ : Sched) (c t : Nat) : Sched :=
  let σ' := setState σ t .ready
  setCore σ' c
    { σ'.cores c with
      runqueue := enqueue_insert (fun x => (σ'.tasks x).priority) t (σ'.cores c).runqueue }

/-- `dequeue_task` (sched.c lines 85–90): unlink a task from the run
queue (removal of the first occurrence of its id). -/
def dequeue_task (σ : Sched) (c t : Nat) : Sched :=
  setCore σ c { σ.cores c with runqueue := (σ.cores c).runqueue.erase t }

/-- `pick_next_task` (sched.c lines 93–101): idle task when the queue
is empty; otherwise takes the queue head, dequeues it and immediately
re-enqueues it ("// Round-robin"), returning it. -/
def pick_next_task (σ : Sched) (c : Nat) : Nat × Sched :=
  match (σ.cores c).runqueue with
  | [] => ((σ.cores c).idle, σ)
  | next :: rest =>
    let σ' := setCore σ c { σ.cores c with runqueue := rest }
    (next, enqueue_task σ' c next)

/-- `schedule` (sched.c lines 160–180): reads `current` as `prev`,
picks the next task, then unconditionally sets `prev->state =
TASK_READY`, sets `next->state = TASK_RUNNING`, updates `current` and
the schedule counter. (The context switch itself only transfers
register state.) -/
def schedule (σ : Sched) (c : Nat) : Sched :=
  let prev := (σ.cores c).current
  let (next, σ1) := pick_next_task σ c
  let σ2 := setState σ1 prev .ready
  let σ3 := setState σ2 next .running
  setCore σ3 c { σ3.cores c with current := next, scheduleCount := (σ3.cores c).scheduleCount + 1 }

/-- `task_block` (sched.c lines 186–189): sets the calling core's
current task to `new_state` then calls `schedule()`. -/
def task_block (σ : Sched) (c : Nat) (new_state : TaskState) : Sched :=
  schedule (setState σ ((σ.cores c).current) new_state) c

/-- Structural helper for `ctz`: the first argument is fuel bounding
the recursion depth (any fuel ≥ the bit length gives the same value). -/
def ctzAux : Nat → Nat → Nat
  | 0, _ => 0
  | fuel + 1, n => if n % 2 = 1 ∨ n = 0 then 0 else ctzAux fuel (n / 2) + 1

/-- `__builtin_ctzll`: index of the lowest set bit (the C behaviour is
undefined at 0; every caller passes a nonzero affinity mask). -/
def ctz (n : Nat) : Nat := ctzAux n n

/-- `task_wakeup` (sched.c lines 191–205): target core is the lowest
set affinity bit; a BLOCKED task is enqueued there; afterwards, if that
core's current task is its idle task, `send_ipi(1 << cpu,
IPI_RESCHEDULE, 0)` is issued. -/
def task_wakeup (σ : Sched) (t : Nat) : Sched :=
  let c := ctz ((σ.tasks t).affinity)
  let σ1 := if (σ.tasks t).state = .blocked then enqueue_task σ c t else σ
  if (σ1.cores c).current = (σ1.cores c).idle then
    { σ1 with ipis := (1 <<< c, IPI_RESCHEDULE, 0) :: σ1.ipis }
  else σ1

/-- `sched_init_cpu` (sched.c lines 27–42): fresh core whose idle task
(id supplied by the caller, standing for the kmalloc'd block) has
priority `TASK_MAX_PRIORITY = 255`, state RUNNING, and is `current`. -/
def sched_init_cpu (σ : Sched) (c idleId : Nat) : Sched :=
  let σ' := setTask σ idleId { priority := 255, state := .running, affinity := 0 }
  setCore σ' c { runqueue := [], current := idleId, idle := idleId, scheduleCount := 0 }

/-- The scheduler-visible part of `task_create` (task.c lines 19–57):
the new task gets the given priority and affinity, state READY, and is
enqueued on the core named by its lowest set affinity bit. -/
def task_create_sched (σ : Sched) (t prio aff : Nat) : Sched :=
  let σ' := setTask σ t { priority := prio, state := .ready, affinity := aff }
  enqueue_task σ' (ctz aff) t

/-! ## MMU data model (mmu.c)

A page-table entry is a 64-bit word in the C source; its bit ranges are
modelled as named fields: `valid` = PTE_VALID (bit 0), `table` =
PTE_TABLE / PTE_PAGE (bit 1), `af` = PTE_AF (bit 10), `shInner` =
PTE_SH_INNER (bits 8–9), `user` = PTE_USER (bit 6), `ro` = PTE_RO
(bit 7; note `PTE_RW` is the all-zero mask `0ULL << 7`, so "read-write"
is this bit clear), `pxn`/`uxn` = bits 53–54, `cow` = PTE_COW (bit 55),
and `addr` = the page-aligned address bits (`entry & PAGE_MASK`).
Table nodes (kmalloc'd 4 KiB arrays of 512 entries) live in a heap
`nodes` addressed by allocation order of a single fresh-address
counter, standing for the kmalloc addresses. -/

structure PTE where
  valid : Bool
  table : Bool
  af : Bool
  shInner : Bool
  user : Bool
  ro : Bool
  pxn : Bool
  uxn : Bool
  cow : Bool
  addr : Nat
deriving DecidableEq, Repr

def PTE.empty : PTE :=
  { valid := false, table := false, af := false, shInner := false, user := false,
    ro := false, pxn := false, uxn := false, cow := false, addr := 0 }

/-- MMU state: the node heap, the fresh-address counter backing both
`kmalloc`/`pt_alloc_level` and the `phys_alloc_page` stub (which is
itself `kmalloc(PAGE_SIZE)`), the physical-page reference table, the
abstract contents of each physical page, and the log of
`phys_free_page` calls (most recent first). -/
structure MMU where
  nodes : Nat → Nat → PTE
  nextAddr : Nat
  refTable : Nat → Nat
  pageData : Nat → Nat
  freedLog : List Nat

/-- The all-empty initial MMU state. -/
def mmu0 : MMU :=
  { nodes := fun _ _ => PTE.empty, nextAddr := 0,
    refTable := fun _ => 0, pageData := fun _ => 0, freedLog := [] }

/-- Store entry `e` at index `i` of table node `n`. -/
def writeEntry (st : MMU) (n i : Nat) (e : PTE) : MMU :=
  { st with nodes := fun n' i' => if n' = n then (if i' = i then e else st.nodes n' i') else st.nodes n' i' }

/-- `pt_alloc_level` (mmu.c lines 58–62): kmalloc a page and zero it,
giving a fresh all-empty table node. -/
def pt_alloc_level (st : MMU) : Nat × MMU :=
  (st.nextAddr,
   { st with nextAddr := st.nextAddr + 1,
             nodes := fun n i => if n = st.nextAddr then PTE.empty else st.nodes n i })

/-- `phys_alloc_page` (mmu.c lines 48–51): the allocator stub; returns
a fresh page address. -/
def phys_alloc_page (st : MMU) : Nat × MMU :=
  (st.nextAddr, { st with nextAddr := st.nextAddr + 1 })

/-- `phys_free_page` (mmu.c lines 53–55): the body is an empty TODO
stub in the source; the model only records the call. -/
def phys_free_page (st : MMU) (page : Nat) : MMU :=
  { st with freedLog := page :: st.freedLog }

/-- Modelled from the spec: the Physical-Page Reference Table (§3).
`page_ref_inc` is called at mmu.c line 207 but its implementation is
not under `src/`; per §3 it increments the refcount keyed by the
physical page. -/
def page_ref_inc (st : MMU) (p : Nat) : MMU :=
  { st with refTable := fun q => if q = p then st.refTable p + 1 else st.refTable q }

/-- Modelled from the spec: the decrement operation of the
Physical-Page Reference Table (§3); not under `src/`. -/
def page_ref_dec (st : MMU) (p : Nat) : MMU :=
  { st with refTable := fun q => if q = p then st.refTable p - 1 else st.refTable q }

/-- The MMU-relevant field of `struct task`: `pgtable_l0`. -/
structure MTask where
  pgtable_l0 : Nat
deriving DecidableEq, Repr

/-- Protection flags (mmu.c lines 39–42). -/
def PROT_NONE : Nat := 0
def PROT_READ : Nat := 1
def PROT_WRITE : Nat := 2
def PROT_EXEC : Nat := 4

def PAGE_SIZE' : Nat := 4096

/-- 9-bit index slices of the virtual address (mmu.c lines 19–22). -/
def l0_index (va : Nat) : Nat := (va >>> 39) &&& 511
def l1_index (va : Nat) : Nat := (va >>> 30) &&& 511
def l2_index (va : Nat) : Nat := (va >>> 21) &&& 511
def l3_index (va : Nat) : Nat := (va >>> 12) &&& 511

/-- One L0/L1/L2 step of `mmu_walk_pte` (mmu.c lines 71–98): follow a
valid entry's address; on an invalid entry, allocate a fresh level and
install `table | PTE_VALID | PTE_TABLE` when `create` is set, else
return NULL (`none`). -/
def walk_table_level (st : MMU) (node idx : Nat) (create : Bool) : Option (Nat × MMU) :=
  let e := st.nodes node idx
  if e.valid then
    some (e.addr, st)
  else if create then
    let (child, st') := pt_alloc_level st
    some (child, writeEntry st' node idx
      { PTE.empty with valid := true, table := true, addr := child })
  else none

/-- `mmu_walk_pte` (mmu.c lines 65–109): descend L0→L3; at L3 an
invalid entry is (when `create` is set) filled with a freshly allocated
physical page and the default attributes `PTE_VALID | PTE_PAGE |
PTE_AF | PTE_SH_INNER | PTE_USER | PTE_RW`; returns the storage
location of the leaf entry. -/
def mmu_walk_pte (st : MMU) (task : MTask) (va : Nat) (create : Bool) :
    Option ((Nat × Nat) × MMU) :=
  match walk_table_level st task.pgtable_l0 (l0_index va) create with
  | none => none
  | some (pud, st) =>
  match walk_table_level st pud (l1_index va) create with
  | none => none
  | some (pmd, st) =>
  match walk_table_level st pmd (l2_index va) create with
  | none => none
  | some (pte, st) =>
    let i := l3_index va
    let e := st.nodes pte i
    if e.valid then some ((pte, i), st)
    else if create then
      let (page, st) := phys_alloc_page st
      some ((pte, i),
        writeEntry st pte i
          { valid := true, table := true, af := true, shInner := true, user := true,
            ro := false, pxn := false, uxn := false, cow := false, addr := page })
    else none

/-- One iteration of the `mmu_map` loop (mmu.c lines 202–215): walk
with create, allocate a physical page, `page_ref_inc` it, build the
attributes (`PTE_RW` is the zero mask, so the `prot & PROT_WRITE`
branch has no effect on the entry), clear PTE_VALID when `guard` is
set, and store the entry. `none` models the `return -1` path. -/
def mmu_map_page (st : MMU) (task : MTask) (virt prot : Nat) (guard : Bool) : Option MMU :=
  match mmu_walk_pte st task virt true with
  | none => none
  | some ((n, i), st) =>
    let (phys, st) := phys_alloc_page st
    let st := page_ref_inc st phys
    let e : PTE :=
      { valid := true, table := true, af := true, shInner := true, user := true,
        ro := false, pxn := false, uxn := (prot &&& PROT_EXEC) = 0, cow := false, addr := phys }
    let e := if guard then { e with valid := false } else e
    some (writeEntry st n i e)

/-- The `for (; virt < end; virt += PAGE_SIZE)` loop of `mmu_map`,
iterated on its page count: since the loop advances `virt` by exactly
`PAGE_SIZE` per iteration, it runs ⌈(end − virt)/PAGE_SIZE⌉ times. -/
def mmu_map_go (st : MMU) (task : MTask) (virt prot : Nat) (guard : Bool) : Nat → Int × MMU
  | 0 => (0, st)
  | npages + 1 =>
    match mmu_map_page st task virt prot guard with
    | none => (-1, st)
    | some st' => mmu_map_go st' task (virt + PAGE_SIZE') prot guard npages

/-- `mmu_map` (mmu.c lines 198–219): the loop runs once per page of
`[virt, virt + size)`. The trailing `mmu_tlb_invalidate_addr` only
touches TLB hardware state, which no claim about this function
observes. -/
def mmu_map (st : MMU) (task : MTask) (virt size prot : Nat) (guard : Bool) : Int × MMU :=
  mmu_map_go st task virt prot guard ((size + (PAGE_SIZE' - 1)) / PAGE_SIZE')

/-- `pt_free` (mmu.c lines 112–137): for every valid L0/L1/L2 entry
recurse into the child node; at L3 call `phys_free_page` only on
entries with `PTE_VALID` set and `PTE_TABLE` clear; `kfree` of the
table nodes themselves releases heap memory and has no effect on any
state a claim observes. The four nested `for` loops are named
`pt_free_l3`/`_l2`/`_l1`/`pt_free`, innermost first. -/
def pt_free_l3 (st : MMU) (l3 : Nat) : MMU :=
  (List.range 512).foldl (fun st m =>
    let e3 := st.nodes l3 m
    if e3.valid ∧ ¬e3.table then phys_free_page st e3.addr else st) st

def pt_free_l2 (st : MMU) (l2 : Nat) : MMU :=
  (List.range 512).foldl (fun st k =>
    let e2 := st.nodes l2 k
    if e2.valid then pt_free_l3 st e2.addr else st) st

def pt_free_l1 (st : MMU) (l1 : Nat) : MMU :=
  (List.range 512).foldl (fun st j =>
    let e1 := st.nodes l1 j
    if e1.valid then pt_free_l2 st e1.addr else st) st

def pt_free (st : MMU) (l0 : Nat) : MMU :=
  (List.range 512).foldl (fun st i =>
    let e0 := st.nodes l0 i
    if e0.valid then pt_free_l1 st e0.addr else st) st

/-- A `child | PTE_VALID | PTE_TABLE` entry. -/
def tableEntry (child : Nat) : PTE :=
  { PTE.empty with valid := true, table := true, addr := child }

/-- The `for (m ...)` leaf loop of `mmu_duplicate_pagetable`
(mmu.c lines 252–254, cut off inside `new_l3[m]`): the leaf
assignment is modelled from the spec — share the valid leaf into the
child's L3 node marked COW/read-only and increment its refcount. -/
def dup_l3_loop (st : MMU) (old_l3 new_l3 : Nat) : MMU :=
  (List.range 512).foldl (fun st m =>
    let e3 := st.nodes old_l3 m
    if e3.valid then
      page_ref_inc (writeEntry st new_l3 m { e3 with ro := true, cow := true }) e3.addr
    else st) st

/-- The `for (k ...)` loop of `mmu_duplicate_pagetable` (mmu.c lines
244–251). For a valid table entry it allocates `new_l3` and stores it
into the PARENT's original L2 node (`old_l2[k] = ...`, line 250). -/
def dup_l2_loop (st : MMU) (old_l2 : Nat) : MMU :=
  (List.range 512).foldl (fun st k =>
    let e2 := st.nodes old_l2 k
    if e2.valid then
      if e2.table then
        let old_l3 := e2.addr
        let (new_l3, st) := pt_alloc_level st
        let st := writeEntry st old_l2 k (tableEntry new_l3)
        dup_l3_loop st old_l3 new_l3
      else st
    else st) st

/-- The `for (j ...)` loop of `mmu_duplicate_pagetable` (mmu.c lines
236–243). For a valid table entry it allocates `new_l2` and stores it
into the PARENT's L1 node (`old_l1[j] = ...`, line 242); the child's
`new_l1` node is never written. -/
def dup_l1_loop (st : MMU) (old_l1 : Nat) : MMU :=
  (List.range 512).foldl (fun st j =>
    let e1 := st.nodes old_l1 j
    if e1.valid then
      if e1.table then
        let old_l2 := e1.addr
        let (new_l2, st) := pt_alloc_level st
        let st := writeEntry st old_l1 j (tableEntry new_l2)
        dup_l2_loop st old_l2
      else st
    else st) st

/-- The lower-half `for (i = 0; i < 256; ...)` loop of
`mmu_duplicate_pagetable` (mmu.c lines 230–235). -/
def dup_l0_loop (st : MMU) (parent_l0 new_l0 : Nat) : MMU :=
  (List.range 256).foldl (fun st i =>
    let e0 := st.nodes parent_l0 i
    if e0.valid then
      let old_l1 := e0.addr
      let (new_l1, st) := pt_alloc_level st
      let st := writeEntry st new_l0 i (tableEntry new_l1)
      dup_l1_loop st old_l1
    else st) st

/-- `mmu_duplicate_pagetable` (mmu.c lines 222–254): allocates a fresh
root, memcpys the kernel upper half, and runs the lower-half loop.
The file is cut off at line 254 inside the leaf assignment `new_l3[m]`;
that assignment (see `dup_l3_loop`) and the function tail — install the
new root into the child and return 0 — are modelled from the spec
(§4.2 `duplicate`). -/
def mmu_duplicate_pagetable (st : MMU) (parent child : MTask) : Int × MTask × MMU :=
  let (new_l0, st) := pt_alloc_level st
  let st := { st with nodes := fun n i =>
      if n = new_l0 ∧ 256 ≤ i ∧ i < 512 then st.nodes parent.pgtable_l0 i else st.nodes n i }
  let st := dup_l0_loop st parent.pgtable_l0 new_l0
  (0, { child with pgtable_l0 := new_l0 }, st)

/-- Modelled from the spec: `handle_cow_fault(task, entry, fault_addr)`
is not under `src/` (mmu.c is cut off before the fault handlers). Per
§4.2: on a write fault to a leaf whose physical page has refcount > 1,
allocate a new physical page, copy the old page's contents, rewrite the
faulting task's leaf to the new page with write permission restored,
and decrement the old page's refcount; if the refcount is already 1,
just restore write permission on the existing mapping. The entry is
addressed by its storage location `(n, i)` as returned by
`mmu_walk_pte`. -/
def handle_cow_fault (st : MMU) (n i : Nat) : MMU :=
  let e := st.nodes n i
  let old := e.addr
  if st.refTable old > 1 then
    let (newp, st) := phys_alloc_page st
    let st := { st with pageData := fun q => if q = newp then st.pageData old else st.pageData q }
    let st := page_ref_inc st newp
    let st := writeEntry st n i { e with addr := newp, ro := false, cow := false }
    page_ref_dec st old
  else
    writeEntry st n i { e with ro := false, cow := false }

/-! ## Task lifecycle: execve (task.c) -/

/-- The `Elf64_Ehdr` fields read by `execve` (task.c lines 109–131).
`ident` is the 16-byte `e_ident` array. -/
structure Ehdr where
  ident : List Nat
  machine : Nat
  etype : Nat
  entry : Nat
  phoff : Nat
  shoff : Nat
  phnum : Nat
  shnum : Nat
  shstrndx : Nat
deriving DecidableEq, Repr

/-- The validation of task.c lines 114–118: ELF magic `"\x7fELF"`
(ELFMAG/SELFMAG = 4), `EI_CLASS = ELFCLASS64 (2)`, `EI_DATA =
ELFDATA2LSB (1)`, `e_machine = EM_AARCH64 (183)`, `e_type = ET_EXEC
(2)` (standard ELF constants; `elf64.h` is not under `src/`). -/
def elf_header_ok (e : Ehdr) : Bool :=
  decide (e.ident.take 4 = [0x7f, 0x45, 0x4c, 0x46]) &&
  decide ((e.ident.drop 4).take 1 = [2]) &&
  decide ((e.ident.drop 5).take 1 = [1]) &&
  decide (e.machine = 183) &&
  decide (e.etype = 2)

/-- Modelled from the spec: `mmu_free_usermemory` is declared
(kernel.h line 113, called at task.c line 124) but not defined under
`src/` (mmu.c is truncated). Per §4.6/§4.2: discards the caller's
user-space mappings, i.e. the lower half of its root table, leaving
the kernel-shared upper half alone. -/
def mmu_free_usermemory (st : MMU) (task : MTask) : MMU :=
  { st with nodes := fun n i =>
      if n = task.pgtable_l0 ∧ i < 256 then PTE.empty else st.nodes n i }

/-- `execve` (task.c lines 103–134, cut off at line 134). The file
open and header read are boundary inputs: `openOk` is whether
`vfs_open` succeeded, `hdr` is the header `vfs_read` produced (`none`
= short read, which takes the `goto fail` path — the `fail:` label is
in the truncated tail and, modelled from the spec's "fails closed",
returns an error without touching the address space). Validation
failure returns −1 after only `vfs_close`. Only on a valid header is
`mmu_free_usermemory` reached; the truncated segment-loading tail is
abstracted by the `load` parameter. -/
def execve (load : MMU → MTask → Ehdr → Int × MMU) (st : MMU) (task : MTask)
    (openOk : Bool) (hdr : Option Ehdr) : Int × MMU :=
  if ¬openOk then (-1, st)
  else
    match hdr with
    | none => (-1, st)
    | some e =>
      if ¬elf_header_ok e then (-1, st)
      else
        let st := mmu_free_usermemory st task
        load st task e

/-! ## IPI layer (irq.c) -/

def MAX_CPUS : Nat := 8

/-- `send_ipi` (irq.c lines 110–121): for every CPU whose bit is set
in `target_cpus`, write `(1 << 40) | (cpu << 16) | ipi_id` to
`sgi1r_el1` (followed by `dsb sy`). The returned list is those
register writes in order. The `arg` parameter is accepted but never
encoded in the value written. -/
def send_ipi (target_cpus ipi_id _arg : Nat) : List Nat :=
  (List.range MAX_CPUS).filterMap (fun cpu =>
    if target_cpus &&& (1 <<< cpu) ≠ 0 then
      some ((1 <<< 40) ||| (cpu <<< 16) ||| ipi_id)
    else none)

/-- What a receiving core's handler does, as an observable action. -/
inductive IrqAction where
  | tlbFlushAll
  | tlbFlushPage (page : Nat)
  | localSchedule
  | deviceIrq (irq : Nat)
  | noAction
deriving DecidableEq, Repr

/-- `ipi_handler` (irq.c lines 124–146): TLB_SHOOTDOWN flushes the
whole TLB (`tlbi vmalle1`) when `arg == 0`, else one translation
(`tlbi vae1, arg >> PAGE_SHIFT`); RESCHEDULE calls the local
`schedule()`. -/
def ipi_handler (ipi_id arg : Nat) : IrqAction :=
  if ipi_id = IPI_TLB_SHOOTDOWN then
    if arg = 0 then .tlbFlushAll else .tlbFlushPage (arg >>> 12)
  else if ipi_id = IPI_RESCHEDULE then .localSchedule
  else .noAction

/-- `irq_handler` (irq.c lines 149–163): reads `iar`, and for an SGI
(interrupt id < 16) calls `ipi_handler(irq, 0)` — the argument slot is
hard-coded to 0 ("Arg from SGI if needed"). -/
def irq_handler (iar : Nat) : IrqAction :=
  let irq := iar &&& 0x3FF
  if irq < 16 then ipi_handler irq 0 else .deviceIrq irq

/-- The interrupt id a receiving core's GIC presents for a software
generated interrupt: the SGI number, bits [3:0] of the `sgi1r_el1`
value. -/
def sgi_intid (val : Nat) : Nat := val &&& 0xF

/-- End-to-end delivery of one `send_ipi` call: each emitted SGI is
received by its target core, whose `irq_handler` runs on the presented
interrupt id. -/
def deliver_ipi (target_cpus ipi_id arg : Nat) : List IrqAction :=
  (send_ipi target_cpus ipi_id arg).map (fun v => irq_handler (sgi_intid v))

/-! ## Run-queue ordering (claim C4) -/

theorem mem_enqueue_insert {p : Nat → Nat} {t y : Nat} {l : List Nat} :
    y ∈ enqueue_insert p t l ↔ y = t ∨ y ∈ l := by
  induction l with
  | nil => simp [enqueue_insert]
  | cons x xs ih =>
    by_cases h : p x ≤ p t
    · simp [enqueue_insert, h, ih]
      tauto
    · simp [enqueue_insert, h]

theorem self_mem_enqueue_insert (p : Nat → Nat) (t : Nat) (l : List Nat) :
    t ∈ enqueue_insert p t l := mem_enqueue_insert.mpr (Or.inl rfl)

theorem sorted_enqueue_insert {p : Nat → Nat} {t : Nat} {l : List Nat}
    (h : l.Pairwise (fun a b => p a ≤ p b)) :
    (enqueue_insert p t l).Pairwise (fun a b => p a ≤ p b) := by
  induction l with
  | nil => simp [enqueue_insert]
  | cons x xs ih =>
    rcases List.pairwise_cons.mp h with ⟨hx, hxs⟩
    by_cases hc : p x ≤ p t
    · simp only [enqueue_insert, if_pos hc]
      refine List.pairwise_cons.mpr ⟨?_, ih hxs⟩
      intro y hy
      rcases mem_enqueue_insert.mp hy with rfl | hy
      · exact hc
      · exact hx y hy
    · simp only [enqueue_insert, if_neg hc]
      refine List.pairwise_cons.mpr ⟨?_, h⟩
      intro y hy
      rcases List.mem_cons.mp hy with rfl | hy
      · omega
      · exact le_trans (by omega) (hx y hy)

theorem enqueue_insert_sorted_split {p : Nat → Nat} {t : Nat} {l : List Nat}
    (h : l.Pairwise (fun a b => p a ≤ p b)) :
    enqueue_insert p t l =
      l.filter (fun x => decide (p x ≤ p t)) ++ t :: l.filter (fun x => decide (p t < p x)) := by
  induction l with
  | nil => simp [enqueue_insert]
  | cons x xs ih =>
    rcases List.pairwise_cons.mp h with ⟨hx, hxs⟩
    by_cases hc : p x ≤ p t
    · have hnc : ¬p t < p x := by omega
      simp only [enqueue_insert, if_pos hc, List.filter_cons, decide_eq_true_eq,
        if_pos hc, hnc, if_neg, ih hxs, decide_eq_false hnc]
      simp
    · have hlt : p t < p x := by omega
      have h1 : List.filter (fun x => decide (p x ≤ p t)) (x :: xs) = [] := by
        rw [List.filter_eq_nil_iff]
        intro a ha
        rcases List.mem_cons.mp ha with rfl | ha
        · simpa using hc
        · have := hx a ha
          simp only [decide_eq_true_eq]
          omega
      have h2 : List.filter (fun x => decide (p t < p x)) (x :: xs) = x :: xs := by
        rw [List.filter_eq_self]
        intro a ha
        rcases List.mem_cons.mp ha with rfl | ha
        · simpa using hlt
        · have := hx a ha
          simp only [decide_eq_true_eq]
          omega
      simp [enqueue_insert, if_neg hc, h1, h2]

theorem sorted_foldl_enqueue_insert (p : Nat → Nat) (ts : List Nat) (q : List Nat)
    (hq : q.Pairwise (fun a b => p a ≤ p b)) :
    (ts.foldl (fun acc t => enqueue_insert p t acc) q).Pairwise (fun a b => p a ≤ p b) := by
  induction ts generalizing q with
  | nil => exact hq
  | cons t ts ih => exact ih _ (sorted_enqueue_insert hq)

/-- A boot scheduler state with empty run queues, used by the concrete
scenarios. -/
def sched_empty : Sched :=
  { tasks := fun _ => { priority := 255, state := .running, affinity := 0 },
    cores := fun _ => { runqueue := [], current := 0, idle := 0, scheduleCount := 0 },
    ipis := [] }

/-- C4: for every sequence of enqueue operations the run queue stays
sorted ascending by priority value; an enqueued task is placed after
every queued task of lower-or-equal priority value and before every
strictly greater one, preserving insertion order among equals (FIFO);
and enqueuing tasks A (id 1, priority 5), B (id 2, priority 3), C
(id 3, priority 10) into an empty queue in that order yields queue
order B, A, C. -/
theorem claim_C4_enqueue_priority_fifo :
    (∀ (p : Nat → Nat) (t : Nat) (l : List Nat),
        l.Pairwise (fun a b => p a ≤ p b) →
        (enqueue_insert p t l).Pairwise (fun a b => p a ≤ p b)) ∧
    (∀ (p : Nat → Nat) (t : Nat) (l : List Nat),
        l.Pairwise (fun a b => p a ≤ p b) →
        enqueue_insert p t l =
          l.filter (fun x => decide (p x ≤ p t)) ++ t :: l.filter (fun x => decide (p t < p x))) ∧
    (∀ (p : Nat → Nat) (ts : List Nat),
        (ts.foldl (fun acc t => enqueue_insert p t acc) []).Pairwise (fun a b => p a ≤ p b)) ∧
    ((task_create_sched (task_create_sched (task_create_sched sched_empty 1 5 1) 2 3 1)
        3 10 1).cores 0).runqueue = [2, 1, 3] := by
  refine ⟨fun p t l h => sorted_enqueue_insert h,
          fun p t l h => enqueue_insert_sorted_split h,
          fun p ts => sorted_foldl_enqueue_insert p ts [] (by simp),
          ?_⟩
  decide

/-- Witness for C4 at concrete inputs. -/
theorem claim_C4_enqueue_priority_fifo_witness :
    (enqueue_insert id 4 [3, 5]).Pairwise (fun a b => id a ≤ id b) ∧
    enqueue_insert id 4 [3, 5] =
      [3, 5].filter (fun x => decide (id x ≤ id 4)) ++ 4 :: [3, 5].filter (fun x => decide (id 4 < id x)) :=
  ⟨claim_C4_enqueue_priority_fifo.1 id 4 [3, 5] (by decide),
   claim_C4_enqueue_priority_fifo.2.1 id 4 [3, 5] (by decide)⟩

/-! ## Scheduler selection (claims C1, C2) -/

/-- The task `pick_next_task` will choose: the run-queue head, or the
idle task when the queue is empty. -/
def pick_choice (σ : Sched) (c : Nat) : Nat :=
  match (σ.cores c).runqueue with
  | [] => (σ.cores c).idle
  | t :: _ => t

/-- C1 (amended): `schedule()` selects the head of the run queue —
regardless of that task's recorded state — or the idle task when the
queue is empty; the selected task is re-inserted into the run queue by
`pick_next_task` (so a non-idle task keeps its queue membership while
RUNNING); after `schedule()` the core's current task is the selected
one and its state is RUNNING, and the previous task's state is set to
READY whenever it is not the selected one (even if it had just been
marked BLOCKED or ZOMBIE). -/
theorem claim_C1_amended (σ : Sched) (c : Nat) :
    ((schedule σ c).cores c).current = pick_choice σ c ∧
    ((schedule σ c).tasks (pick_choice σ c)).state = .running ∧
    (∀ t rest, (σ.cores c).runqueue = t :: rest → t ∈ ((schedule σ c).cores c).runqueue) ∧
    ((σ.cores c).current ≠ pick_choice σ c →
      ((schedule σ c).tasks ((σ.cores c).current)).state = .ready) := by
  cases hq : (σ.cores c).runqueue with
  | nil =>
    refine ⟨?_, ?_, ?_, ?_⟩
    · simp [schedule, pick_next_task, hq, pick_choice, setState, setTask, setCore]
    · simp [schedule, pick_next_task, hq, pick_choice, setState, setTask, setCore]
    · intro t rest h
      simp [hq] at h
    · intro hne
      simp only [pick_choice, hq] at hne
      simp [schedule, pick_next_task, hq, pick_choice, setState, setTask, setCore, hne,
        Ne.symm hne]
  | cons t rest =>
    refine ⟨?_, ?_, ?_, ?_⟩
    · simp [schedule, pick_next_task, hq, pick_choice, setState, setTask, setCore, enqueue_task]
    · simp [schedule, pick_next_task, hq, pick_choice, setState, setTask, setCore, enqueue_task]
    · intro t' rest' h
      injection h with h1 h2
      subst h1
      simp [schedule, pick_next_task, hq, setState, setTask, setCore, enqueue_task]
      exact self_mem_enqueue_insert _ _ _
    · intro hne
      simp only [pick_choice, hq] at hne
      simp [schedule, pick_next_task, hq, pick_choice, setState, setTask, setCore, enqueue_task,
        hne, Ne.symm hne]

/-- A state reachable by the code's own operations: boot one core
(`sched_init_cpu`, idle task id 0), create task 1 (priority 10,
affinity 1), then run `schedule()` on core 0. -/
def c1_reached : Sched := schedule (task_create_sched (sched_init_cpu sched_empty 0 0) 1 10 1) 0

/-- C1 counterexample: in the reachable state `c1_reached`, task 1 is
the core's current task with state RUNNING and is simultaneously a
member of the core's run queue (`pick_next_task` re-enqueued it before
`schedule` marked it RUNNING) — refuting "a RUNNING task is in no run
queue" and hence the claimed state/queue-membership match. -/
theorem claim_C1_counterexample :
    (c1_reached.tasks 1).state = .running ∧ 1 ∈ (c1_reached.cores 0).runqueue ∧
    (c1_reached.cores 0).current = 1 := by decide

/-- Witness for the amended C1 at a concrete reachable input. -/
theorem claim_C1_amended_witness :
    1 ∈ ((schedule (task_create_sched (sched_init_cpu sched_empty 0 0) 1 10 1) 0).cores 0).runqueue ∧
    ((schedule (task_create_sched (sched_init_cpu sched_empty 0 0) 1 10 1) 0).tasks
      (((task_create_sched (sched_init_cpu sched_empty 0 0) 1 10 1).cores 0).current)).state = .ready :=
  ⟨(claim_C1_amended (task_create_sched (sched_init_cpu sched_empty 0 0) 1 10 1) 0).2.2.1 1 []
      (by decide),
   (claim_C1_amended (task_create_sched (sched_init_cpu sched_empty 0 0) 1 10 1) 0).2.2.2
      (by decide)⟩

/-- The state of `c1_reached` after its RUNNING task 1 calls
`task_block(TASK_BLOCKED)`. -/
def c2_after : Sched := task_block c1_reached 0 .blocked

/-- C2 is violated by the code: `task_block` sets the current task's
state to BLOCKED, but the `schedule()` it calls immediately overwrites
it (`prev->state = TASK_READY`, sched.c line 170), re-selects the task
from the run queue it was never removed from, and marks it RUNNING. At
the concrete reachable input `c1_reached` (task 1 RUNNING on core 0),
after `task_block(TASK_BLOCKED)` task 1 has state RUNNING, is still a
run-queue member, and is the core's current task — the claim requires
state BLOCKED, absence from every run queue, and no re-selection
before `task_wakeup`. -/
theorem claim_C2_task_block_bug :
    (c1_reached.cores 0).current = 1 ∧ (c1_reached.tasks 1).state = .running ∧
    (c2_after.tasks 1).state = .running ∧ 1 ∈ (c2_after.cores 0).runqueue ∧
    (c2_after.cores 0).current = 1 := by decide

/-! ## Wakeup (claim C9) -/

@[simp] theorem enqueue_task_current (σ : Sched) (c t c' : Nat) :
    ((enqueue_task σ c t).cores c').current = (σ.cores c').current := by
  by_cases h : c' = c <;> simp [enqueue_task, setCore, setState, setTask, h]

@[simp] theorem enqueue_task_idle (σ : Sched) (c t c' : Nat) :
    ((enqueue_task σ c t).cores c').idle = (σ.cores c').idle := by
  by_cases h : c' = c <;> simp [enqueue_task, setCore, setState, setTask, h]

@[simp] theorem enqueue_task_ipis (σ : Sched) (c t : Nat) :
    (enqueue_task σ c t).ipis = σ.ipis := rfl

@[simp] theorem enqueue_task_tasks_self (σ : Sched) (c t : Nat) :
    (enqueue_task σ c t).tasks t = { σ.tasks t with state := .ready } := by
  simp [enqueue_task, setCore, setState, setTask]

theorem enqueue_task_runqueue_self (σ : Sched) (c t : Nat) :
    ((enqueue_task σ c t).cores c).runqueue =
      enqueue_insert (fun x => ((setState σ t .ready).tasks x).priority) t
        (σ.cores c).runqueue := by
  simp [enqueue_task, setCore, setState, setTask]

theorem enqueue_task_runqueue_other {σ : Sched} {c t c' : Nat} (h : c' ≠ c) :
    ((enqueue_task σ c t).cores c').runqueue = (σ.cores c').runqueue := by
  simp [enqueue_task, setCore, setState, setTask, h]

theorem cons_ne_self_list {α : Type} (a : α) (l : List α) : l ≠ a :: l := by
  intro h
  simpa using congrArg List.length h

/-- C9: for a task whose state is BLOCKED, `task_wakeup` enqueues it
on the run queue of the core given by the lowest set bit of its
affinity mask, making it READY, and sends a RESCHEDULE IPI
(`send_ipi(1 << cpu, IPI_RESCHEDULE, 0)`) to that core exactly when
that core's current task is its idle task; for a task that is not
BLOCKED, no run queue is modified. -/
theorem claim_C9_task_wakeup (σ : Sched) (t : Nat) :
    ((σ.tasks t).state = .blocked →
        t ∈ ((task_wakeup σ t).cores (ctz ((σ.tasks t).affinity))).runqueue ∧
        ((task_wakeup σ t).tasks t).state = .ready ∧
        ((task_wakeup σ t).ipis =
            (1 <<< ctz ((σ.tasks t).affinity), IPI_RESCHEDULE, 0) :: σ.ipis ↔
          (σ.cores (ctz ((σ.tasks t).affinity))).current =
            (σ.cores (ctz ((σ.tasks t).affinity))).idle)) ∧
    ((σ.tasks t).state ≠ .blocked →
        ∀ c', ((task_wakeup σ t).cores c').runqueue = (σ.cores c').runqueue) := by
  constructor
  · intro hb
    by_cases hidle : (σ.cores (ctz ((σ.tasks t).affinity))).current =
        (σ.cores (ctz ((σ.tasks t).affinity))).idle
    · have hw : task_wakeup σ t =
          { enqueue_task σ (ctz ((σ.tasks t).affinity)) t with
            ipis := (1 <<< ctz ((σ.tasks t).affinity), IPI_RESCHEDULE, 0) :: σ.ipis } := by
        simp [task_wakeup, hb, hidle]
      refine ⟨?_, ?_, ?_⟩
      · rw [hw]
        show t ∈ ((enqueue_task σ (ctz ((σ.tasks t).affinity)) t).cores
          (ctz ((σ.tasks t).affinity))).runqueue
        rw [enqueue_task_runqueue_self]
        exact self_mem_enqueue_insert _ _ _
      · rw [hw]
        show ((enqueue_task σ (ctz ((σ.tasks t).affinity)) t).tasks t).state = .ready
        simp
      · simp [hw, hidle]
    · have hw : task_wakeup σ t = enqueue_task σ (ctz ((σ.tasks t).affinity)) t := by
        simp [task_wakeup, hb, hidle]
      refine ⟨?_, ?_, ?_⟩
      · rw [hw, enqueue_task_runqueue_self]
        exact self_mem_enqueue_insert _ _ _
      · rw [hw]
        simp
      · rw [hw, enqueue_task_ipis]
        simp only [hidle, iff_false]
        exact cons_ne_self_list _ _
  · intro hb c'
    by_cases hidle : (σ.cores (ctz ((σ.tasks t).affinity))).current =
        (σ.cores (ctz ((σ.tasks t).affinity))).idle
    · have hw : task_wakeup σ t =
          { σ with ipis := (1 <<< ctz ((σ.tasks t).affinity), IPI_RESCHEDULE, 0) :: σ.ipis } := by
        simp [task_wakeup, hb, hidle]
      rw [hw]
    · have hw : task_wakeup σ t = σ := by
        simp [task_wakeup, hb, hidle]
      rw [hw]

/-- A concrete state for the C9 witness: task 5 is BLOCKED with
affinity mask 4 (lowest set bit: core 2), whose core is idle. -/
def c9_state : Sched :=
  { tasks := fun x => if x = 5 then { priority := 7, state := .blocked, affinity := 4 }
                      else { priority := 255, state := .running, affinity := 0 },
    cores := fun _ => { runqueue := [], current := 0, idle := 0, scheduleCount := 0 },
    ipis := [] }

/-- Witness for C9 at concrete inputs (both hypotheses exercised). -/
theorem claim_C9_task_wakeup_witness :
    5 ∈ ((task_wakeup c9_state 5).cores (ctz ((c9_state.tasks 5).affinity))).runqueue ∧
    ((task_wakeup c9_state 0).cores 3).runqueue = (c9_state.cores 3).runqueue :=
  ⟨((claim_C9_task_wakeup c9_state 5).1 (by decide)).1,
   (claim_C9_task_wakeup c9_state 0).2 (by decide) 3⟩

/-! ## Guard mappings (claim C10) -/

theorem writeEntry_nodes_self (st : MMU) (n i : Nat) (e : PTE) :
    (writeEntry st n i e).nodes n i = e := by
  simp [writeEntry]

theorem writeEntry_nodes_cases (st : MMU) (n i : Nat) (e : PTE) (n' i' : Nat) :
    (writeEntry st n i e).nodes n' i' = st.nodes n' i' ∨ (n' = n ∧ i' = i) := by
  by_cases hn : n' = n
  · by_cases hi : i' = i
    · exact Or.inr ⟨hn, hi⟩
    · exact Or.inl (by simp [writeEntry, hn, hi])
  · exact Or.inl (by simp [writeEntry, hn])

theorem walk_table_level_create (st : MMU) (node idx : Nat) :
    ∃ c st', walk_table_level st node idx true = some (c, st') := by
  unfold walk_table_level
  by_cases h : (st.nodes node idx).valid <;> simp [h]

theorem mmu_walk_pte_create (st : MMU) (task : MTask) (virt : Nat) :
    ∃ n i st', mmu_walk_pte st task virt true = some ((n, i), st') := by
  obtain ⟨c0, s0, h0⟩ := walk_table_level_create st task.pgtable_l0 (l0_index virt)
  obtain ⟨c1, s1, h1⟩ := walk_table_level_create s0 c0 (l1_index virt)
  obtain ⟨c2, s2, h2⟩ := walk_table_level_create s1 c1 (l2_index virt)
  by_cases hv : (s2.nodes c2 (l3_index virt)).valid
  · exact ⟨c2, l3_index virt, s2, by simp [mmu_walk_pte, h0, h1, h2, hv]⟩
  · exact ⟨c2, l3_index virt,
      writeEntry (phys_alloc_page s2).2 c2 (l3_index virt)
        { valid := true, table := true, af := true, shInner := true, user := true, ro := false,
          pxn := false, uxn := false, cow := false, addr := (phys_alloc_page s2).1 },
      by simp [mmu_walk_pte, h0, h1, h2, hv]⟩

/-- C10: a `mmu_map` call with `guard` set behaves, page by page,
exactly like the ordinary call — the loop body walks/creates the leaf,
allocates a fresh physical page and increments its refcount — and only
then clears the valid bit of the written leaf entry. Part one states
this for one loop iteration (`mmu_map_page`) from an arbitrary state:
the guard and non-guard runs end with the same allocation counter and
the same reference table, the guard leaf entry is the non-guard entry
with `valid := false`, it still carries the freshly allocated page
address, and no other entry differs. Part two evaluates a whole
two-page guard call against the non-guard call from a fresh root:
allocator and refcounts agree (both mapped pages end at refcount 1)
while the guard leaves are invalid. -/
theorem claim_C10_guard_map_refcount :
    (∀ (st : MMU) (task : MTask) (virt prot : Nat),
      ∃ (n i : Nat) (st1 stg stn : MMU),
        mmu_walk_pte st task virt true = some ((n, i), st1) ∧
        mmu_map_page st task virt prot true = some stg ∧
        mmu_map_page st task virt prot false = some stn ∧
        stg.nextAddr = stn.nextAddr ∧
        stg.refTable = stn.refTable ∧
        stg.nextAddr = st1.nextAddr + 1 ∧
        stg.refTable st1.nextAddr = st1.refTable st1.nextAddr + 1 ∧
        stg.nodes n i = { stn.nodes n i with valid := false } ∧
        (stn.nodes n i).valid = true ∧
        (stg.nodes n i).addr = st1.nextAddr ∧
        (stg.nodes n i).valid = false ∧
        (∀ n' i', stg.nodes n' i' = stn.nodes n' i' ∨ (n' = n ∧ i' = i))) ∧
    ((mmu_map (pt_alloc_level mmu0).2 ⟨0⟩ 0 8192 0 true).2.nextAddr =
       (mmu_map (pt_alloc_level mmu0).2 ⟨0⟩ 0 8192 0 false).2.nextAddr ∧
     (mmu_map (pt_alloc_level mmu0).2 ⟨0⟩ 0 8192 0 true).2.refTable 5 = 1 ∧
     (mmu_map (pt_alloc_level mmu0).2 ⟨0⟩ 0 8192 0 true).2.refTable 7 = 1 ∧
     ((mmu_map (pt_alloc_level mmu0).2 ⟨0⟩ 0 8192 0 true).2.nodes 3 0).valid = false ∧
     ((mmu_map (pt_alloc_level mmu0).2 ⟨0⟩ 0 8192 0 true).2.nodes 3 1).valid = false ∧
     ((mmu_map (pt_alloc_level mmu0).2 ⟨0⟩ 0 8192 0 false).2.nodes 3 0).valid = true ∧
     ((mmu_map (pt_alloc_level mmu0).2 ⟨0⟩ 0 8192 0 true).2.nodes 3 0).addr =
       ((mmu_map (pt_alloc_level mmu0).2 ⟨0⟩ 0 8192 0 false).2.nodes 3 0).addr) := by
  constructor
  · intro st task virt prot
    obtain ⟨n, i, st1, hw⟩ := mmu_walk_pte_create st task virt
    refine ⟨n, i, st1,
      writeEntry (page_ref_inc { st1 with nextAddr := st1.nextAddr + 1 } st1.nextAddr) n i
        { valid := false, table := true, af := true, shInner := true, user := true,
          ro := false, pxn := false, uxn := decide (prot &&& PROT_EXEC = 0), cow := false,
          addr := st1.nextAddr },
      writeEntry (page_ref_inc { st1 with nextAddr := st1.nextAddr + 1 } st1.nextAddr) n i
        { valid := true, table := true, af := true, shInner := true, user := true,
          ro := false, pxn := false, uxn := decide (prot &&& PROT_EXEC = 0), cow := false,
          addr := st1.nextAddr },
      hw, ?_, ?_, ?_, ?_, ?_, ?_, ?_, ?_, ?_, ?_, ?_⟩
    · simp [mmu_map_page, hw, phys_alloc_page]
    · simp [mmu_map_page, hw, phys_alloc_page]
    · rfl
    · rfl
    · rfl
    · simp [writeEntry, page_ref_inc]
    · simp [writeEntry_nodes_self]
    · simp [writeEntry_nodes_self]
    · simp [writeEntry_nodes_self]
    · simp [writeEntry_nodes_self]
    · intro n' i'
      rcases writeEntry_nodes_cases
          (page_ref_inc { st1 with nextAddr := st1.nextAddr + 1 } st1.nextAddr) n i
          { valid := false, table := true, af := true, shInner := true, user := true,
            ro := false, pxn := false, uxn := decide (prot &&& PROT_EXEC = 0), cow := false,
            addr := st1.nextAddr } n' i' with h | h
      · rcases writeEntry_nodes_cases
            (page_ref_inc { st1 with nextAddr := st1.nextAddr + 1 } st1.nextAddr) n i
            { valid := true, table := true, af := true, shInner := true, user := true,
              ro := false, pxn := false, uxn := decide (prot &&& PROT_EXEC = 0), cow := false,
              addr := st1.nextAddr } n' i' with h' | h'
        · exact Or.inl (h.trans h'.symm)
        · exact Or.inr h'
      · exact Or.inr h
  · exact ⟨by decide, by decide, by decide, by decide, by decide, by decide, by decide⟩

/-! ## Map/free refcounts (claim C6) -/

theorem foldl_refTable_preserved (f : MMU → Nat → MMU)
    (h : ∀ s x, (f s x).refTable = s.refTable) (l : List Nat) (s : MMU) :
    (l.foldl f s).refTable = s.refTable := by
  induction l generalizing s with
  | nil => rfl
  | cons a t ih => rw [List.foldl_cons, ih, h]

theorem pt_free_l3_refTable (st : MMU) (l3 : Nat) :
    (pt_free_l3 st l3).refTable = st.refTable := by
  apply foldl_refTable_preserved
  intro s x
  dsimp only
  split
  · rfl
  · rfl

theorem pt_free_l2_refTable (st : MMU) (l2 : Nat) :
    (pt_free_l2 st l2).refTable = st.refTable := by
  apply foldl_refTable_preserved
  intro s x
  dsimp only
  split
  · exact pt_free_l3_refTable _ _
  · rfl

theorem pt_free_l1_refTable (st : MMU) (l1 : Nat) :
    (pt_free_l1 st l1).refTable = st.refTable := by
  apply foldl_refTable_preserved
  intro s x
  dsimp only
  split
  · exact pt_free_l2_refTable _ _
  · rfl

theorem pt_free_refTable (st : MMU) (l0 : Nat) :
    (pt_free st l0).refTable = st.refTable := by
  apply foldl_refTable_preserved
  intro s x
  dsimp only
  split
  · exact pt_free_l1_refTable _ _
  · rfl

/-- Concrete C6 run: a fresh root (node address 0), one page mapped at
virtual address 0 — `mmu_map` allocates physical page 5 (after the
walk's intermediate nodes 1, 2, 3 and the walk's own default page 4)
and sets its refcount to 1 — and then `pt_free` of the root. -/
def c6_mapped : MMU := (mmu_map (pt_alloc_level mmu0).2 ⟨0⟩ 0 4096 3 false).2

def c6_freed : MMU := pt_free c6_mapped 0

/-- C6 is violated by the code: `pt_free` never touches the reference
table at all (first conjunct, for every state and root), so after
`mmu_map` of one page (physical page 5, refcount 1, leaf written at
node 3 index 0) the subsequent `pt_free` leaves that refcount at 1,
not 0 — the page's refcount stays positive and the page is leaked.
(The leaf-freeing branch of `pt_free` requires `PTE_TABLE` clear, but
every mapped leaf has that bit set as `PTE_PAGE`, and `phys_free_page`
is an empty stub; no decrement of the reference table exists under
`src/`.) -/
theorem claim_C6_map_free_refcount_leak :
    (∀ (st : MMU) (l0 : Nat), (pt_free st l0).refTable = st.refTable) ∧
    c6_mapped.refTable 5 = 1 ∧
    (c6_mapped.nodes 3 0).valid = true ∧ (c6_mapped.nodes 3 0).addr = 5 ∧
    c6_freed.refTable 5 = 1 ∧
    c6_freed.refTable = c6_mapped.refTable := by
  have hpres : c6_freed.refTable = c6_mapped.refTable := pt_free_refTable _ _
  refine ⟨pt_free_refTable, by decide, by decide, by decide, ?_, hpres⟩
  rw [hpres]
  decide

/-! ## Page-table duplication (claim C3)

The 512-wide loops of `mmu_duplicate_pagetable` are evaluated on a
concrete one-mapping parent by peeling the single valid index and
discharging the remaining 511 iterations with a skip lemma. -/

theorem foldl_id_of {α : Type} (f : α → Nat → α) (s : α) (l : List Nat)
    (h : ∀ x ∈ l, f s x = s) : l.foldl f s = s := by
  induction l with
  | nil => rfl
  | cons a t ih =>
    rw [List.foldl_cons, h a (List.mem_cons_self a t)]
    exact ih fun x hx => h x (List.mem_cons_of_mem a hx)

theorem foldl_range_single {α : Type} (f : α → Nat → α) (s : α) (n : Nat)
    (h : ∀ x, 1 ≤ x → x < n + 1 → f (f s 0) x = f s 0) :
    (List.range (n + 1)).foldl f s = f s 0 := by
  rw [List.range_eq_range']
  show (List.range' 1 n).foldl f (f s 0) = f s 0
  apply foldl_id_of
  intro x hx
  have hm := List.mem_range'_1.mp hx
  exact h x hm.1 (by omega)

/-- The C3 parent state: one user mapping at virtual address 0 through
table nodes 0 (L0) → 1 (L1) → 2 (L2) → 3 (L3) to physical page 5 with
refcount 1 — exactly the tree `mmu_map` builds for one page. -/
def c3_leaf : PTE :=
  { valid := true, table := true, af := true, shInner := true, user := true,
    ro := false, pxn := false, uxn := true, cow := false, addr := 5 }

def c3_parent_st : MMU :=
  { nodes := fun n i =>
      if n = 0 ∧ i = 0 then tableEntry 1
      else if n = 1 ∧ i = 0 then tableEntry 2
      else if n = 2 ∧ i = 0 then tableEntry 3
      else if n = 3 ∧ i = 0 then c3_leaf
      else PTE.empty,
    nextAddr := 6, refTable := fun q => if q = 5 then 1 else 0,
    pageData := fun _ => 0, freedLog := [] }

/-- Intermediate states of `mmu_duplicate_pagetable c3_parent_st`:
root alloc (node 6), kernel-half memcpy, L1 alloc (node 7) + child
root write, L2 alloc (node 8) + PARENT L1 write, L3 alloc (node 9) +
PARENT L2 write, leaf share + refcount increment. -/
def c3_S1 : MMU := (pt_alloc_level c3_parent_st).2

def c3_S2 : MMU :=
  { c3_S1 with nodes := fun n i =>
      if n = 6 ∧ 256 ≤ i ∧ i < 512 then c3_S1.nodes 0 i else c3_S1.nodes n i }

def c3_S2b : MMU := writeEntry (pt_alloc_level c3_S2).2 6 0 (tableEntry 7)

def c3_S2c : MMU := writeEntry (pt_alloc_level c3_S2b).2 1 0 (tableEntry 8)

def c3_S2d : MMU := writeEntry (pt_alloc_level c3_S2c).2 2 0 (tableEntry 9)

def c3_S2e : MMU :=
  page_ref_inc (writeEntry c3_S2d 9 0 { c3_leaf with ro := true, cow := true }) 5

/-- Evaluate a fold over `range (n+1)` whose body acts only at index
0: `v` is the result of that one step, and every later index leaves
`v` unchanged. -/
theorem foldl_range_single' {α : Type} (f : α → Nat → α) (s v : α) (n : Nat)
    (hv : f s 0 = v)
    (h : ∀ x, 1 ≤ x → x < n + 1 → f v x = v) :
    (List.range (n + 1)).foldl f s = v := by
  rw [foldl_range_single]
  · exact hv
  · intro x h1 h2
    rw [hv, h x h1 h2]

theorem c3_dup_l3 : dup_l3_loop c3_S2d 3 9 = c3_S2e := by
  unfold dup_l3_loop
  apply foldl_range_single' _ _ _ 511
  · rfl
  · intro x h1x hx512
    have hx0 : x ≠ 0 := by omega
    have hstep : (c3_S2e.nodes 3 x).valid = false := by
      simp [c3_S2e, c3_S2d, c3_S2c, c3_S2b, c3_S2, c3_S1, c3_parent_st,
        page_ref_inc, writeEntry, pt_alloc_level, PTE.empty, hx0]
    simp [hstep]

theorem c3_dup_l2 : dup_l2_loop c3_S2c 2 = c3_S2e := by
  unfold dup_l2_loop
  apply foldl_range_single' _ _ _ 511
  · exact c3_dup_l3
  · intro x h1x hx512
    have hx0 : x ≠ 0 := by omega
    have hstep : (c3_S2e.nodes 2 x).valid = false := by
      simp [c3_S2e, c3_S2d, c3_S2c, c3_S2b, c3_S2, c3_S1, c3_parent_st,
        page_ref_inc, writeEntry, pt_alloc_level, PTE.empty, hx0]
    simp [hstep]

theorem c3_dup_l1 : dup_l1_loop c3_S2b 1 = c3_S2e := by
  unfold dup_l1_loop
  apply foldl_range_single' _ _ _ 511
  · exact c3_dup_l2
  · intro x h1x hx512
    have hx0 : x ≠ 0 := by omega
    have hstep : (c3_S2e.nodes 1 x).valid = false := by
      simp [c3_S2e, c3_S2d, c3_S2c, c3_S2b, c3_S2, c3_S1, c3_parent_st,
        page_ref_inc, writeEntry, pt_alloc_level, PTE.empty, hx0]
    simp [hstep]

theorem c3_dup_l0 : dup_l0_loop c3_S2 0 6 = c3_S2e := by
  unfold dup_l0_loop
  apply foldl_range_single' _ _ _ 255
  · exact c3_dup_l1
  · intro x h1x hx256
    have hx0 : x ≠ 0 := by omega
    have hstep : (c3_S2e.nodes 0 x).valid = false := by
      simp [c3_S2e, c3_S2d, c3_S2c, c3_S2b, c3_S2, c3_S1, c3_parent_st,
        page_ref_inc, writeEntry, pt_alloc_level, PTE.empty, hx0]
    simp [hstep]

theorem c3_dup_eval :
    mmu_duplicate_pagetable c3_parent_st ⟨0⟩ ⟨99⟩ = (0, ⟨6⟩, c3_S2e) := by
  show (0, ({ pgtable_l0 := 6 } : MTask), dup_l0_loop c3_S2 0 6) = (0, ⟨6⟩, c3_S2e)
  rw [c3_dup_l0]

/-- C3 is violated by the code: on a parent with a single user mapping
(VA 0 → nodes 0→1→2→3 → physical page 5), `mmu_duplicate_pagetable`
stores the freshly allocated L2 node into the PARENT's L1 node
(`old_l1[j] = ...`, mmu.c line 242) instead of the child's, and
likewise at L2 (line 250), and never writes the child's fresh
L1 node. Concretely: the parent's L1 entry changes (node 1 index 0 now
points to the empty new node 8), the parent's previously walkable
mapping at VA 0 is no longer walkable, and the child's tree (root 6)
is not walkable to any leaf either — the claim requires the parent
unchanged and two independent walkable trees sharing the leaf. (The
leaf refcount is still incremented to 2, so the refcount no longer
matches any reachable leaf.) -/
theorem claim_C3_duplicate_mutates_parent :
    (mmu_walk_pte c3_parent_st ⟨0⟩ 0 false).isSome = true ∧
    (mmu_duplicate_pagetable c3_parent_st ⟨0⟩ ⟨99⟩).2.2.nodes 1 0 ≠ c3_parent_st.nodes 1 0 ∧
    (mmu_walk_pte (mmu_duplicate_pagetable c3_parent_st ⟨0⟩ ⟨99⟩).2.2 ⟨0⟩ 0 false).isNone
      = true ∧
    (mmu_duplicate_pagetable c3_parent_st ⟨0⟩ ⟨99⟩).2.1 = ⟨6⟩ ∧
    (mmu_walk_pte (mmu_duplicate_pagetable c3_parent_st ⟨0⟩ ⟨99⟩).2.2 ⟨6⟩ 0 false).isNone
      = true ∧
    (mmu_duplicate_pagetable c3_parent_st ⟨0⟩ ⟨99⟩).2.2.refTable 5 = 2 := by
  rw [c3_dup_eval]
  exact ⟨by decide, by decide, by decide, rfl, by decide, by decide⟩

/-! ## COW fault handling (claim C7) -/

/-- C7: on a write fault at leaf location `(n, i)` whose physical page
is fresh-disjoint from the allocator cursor, if the page's refcount
is > 1 the handler allocates exactly one new physical page (allocation
counter +1), copies the old page's contents to it, rewrites only the
faulting leaf to the new page with write permission restored
(read-only and COW bits cleared), gives the new page refcount
+1 and decrements the old page's refcount by exactly 1; if the
refcount is already 1, nothing is allocated or copied and only the
faulting leaf's write permission is restored. -/
theorem claim_C7_cow_fault (st : MMU) (n i : Nat)
    (hfresh : (st.nodes n i).addr ≠ st.nextAddr) :
    (st.refTable (st.nodes n i).addr > 1 →
        (handle_cow_fault st n i).nextAddr = st.nextAddr + 1 ∧
        (handle_cow_fault st n i).pageData st.nextAddr = st.pageData (st.nodes n i).addr ∧
        (handle_cow_fault st n i).nodes n i =
          { st.nodes n i with addr := st.nextAddr, ro := false, cow := false } ∧
        (handle_cow_fault st n i).refTable (st.nodes n i).addr =
          st.refTable (st.nodes n i).addr - 1 ∧
        (handle_cow_fault st n i).refTable st.nextAddr = st.refTable st.nextAddr + 1 ∧
        (∀ n' i', (handle_cow_fault st n i).nodes n' i' = st.nodes n' i' ∨ (n' = n ∧ i' = i))) ∧
    (st.refTable (st.nodes n i).addr = 1 →
        (handle_cow_fault st n i).nextAddr = st.nextAddr ∧
        (handle_cow_fault st n i).pageData = st.pageData ∧
        (handle_cow_fault st n i).refTable = st.refTable ∧
        (handle_cow_fault st n i).nodes n i =
          { st.nodes n i with ro := false, cow := false } ∧
        (∀ n' i', (handle_cow_fault st n i).nodes n' i' = st.nodes n' i' ∨ (n' = n ∧ i' = i))) := by
  constructor
  · intro hgt
    have hred : handle_cow_fault st n i =
        page_ref_dec
          (writeEntry
            ({ page_ref_inc { st with nextAddr := st.nextAddr + 1 } st.nextAddr with
               pageData := fun q =>
                 if q = st.nextAddr then st.pageData (st.nodes n i).addr else st.pageData q })
            n i { st.nodes n i with addr := st.nextAddr, ro := false, cow := false })
          (st.nodes n i).addr := by
      unfold handle_cow_fault
      rw [if_pos hgt]
      rfl
    refine ⟨?_, ?_, ?_, ?_, ?_, ?_⟩
    · rw [hred]; rfl
    · rw [hred]; simp [page_ref_dec, writeEntry, page_ref_inc]
    · rw [hred]
      simp [page_ref_dec, writeEntry, page_ref_inc]
    · rw [hred]
      simp [page_ref_dec, writeEntry, page_ref_inc, hfresh, Ne.symm hfresh]
    · rw [hred]
      simp [page_ref_dec, writeEntry, page_ref_inc, hfresh, Ne.symm hfresh]
    · intro n' i'
      rw [hred]
      rcases writeEntry_nodes_cases
          ({ page_ref_inc { st with nextAddr := st.nextAddr + 1 } st.nextAddr with
             pageData := fun q =>
               if q = st.nextAddr then st.pageData (st.nodes n i).addr else st.pageData q })
          n i { st.nodes n i with addr := st.nextAddr, ro := false, cow := false } n' i'
          with h | h
      · exact Or.inl h
      · exact Or.inr h
  · intro h1
    have hred : handle_cow_fault st n i =
        writeEntry st n i { st.nodes n i with ro := false, cow := false } := by
      unfold handle_cow_fault
      rw [if_neg (by omega)]
    refine ⟨?_, ?_, ?_, ?_, ?_⟩
    · rw [hred]; rfl
    · rw [hred]; rfl
    · rw [hred]; rfl
    · rw [hred]; exact writeEntry_nodes_self _ _ _ _
    · intro n' i'
      rw [hred]
      exact writeEntry_nodes_cases st n i _ n' i'

/-- Concrete states for the C7 witness: a shared COW leaf at node 0
index 0 over physical page 5 (refcount 2), and an exclusively owned
one (refcount 1). -/
def c7_shared : MMU :=
  { nodes := fun n i => if n = 0 ∧ i = 0 then { c3_leaf with ro := true, cow := true }
                        else PTE.empty,
    nextAddr := 10, refTable := fun q => if q = 5 then 2 else 0,
    pageData := fun q => if q = 5 then 77 else 0, freedLog := [] }

def c7_excl : MMU :=
  { nodes := fun n i => if n = 0 ∧ i = 0 then { c3_leaf with ro := true, cow := true }
                        else PTE.empty,
    nextAddr := 10, refTable := fun q => if q = 5 then 1 else 0,
    pageData := fun q => if q = 5 then 77 else 0, freedLog := [] }

/-- Witness for C7 at concrete inputs (both refcount cases). -/
theorem claim_C7_cow_fault_witness :
    (handle_cow_fault c7_shared 0 0).nextAddr = c7_shared.nextAddr + 1 ∧
    (handle_cow_fault c7_excl 0 0).nextAddr = c7_excl.nextAddr :=
  ⟨((claim_C7_cow_fault c7_shared 0 0 (by decide)).1 (by decide)).1,
   ((claim_C7_cow_fault c7_excl 0 0 (by decide)).2 (by decide)).1⟩

/-! ## execve validation (claim C8) -/

/-- C8: `execve` with a malformed ELF header (any failure of the
magic/class/byte-order/machine/type validation) returns −1 and leaves
the MMU state — in particular the calling task's address space —
exactly as it was: `mmu_free_usermemory` sits after the validation, so
no user mapping is discarded or replaced before validation succeeds.
This holds for every segment-loading tail `load`. -/
theorem claim_C8_execve_bad_header (load : MMU → MTask → Ehdr → Int × MMU)
    (st : MMU) (task : MTask) (openOk : Bool) (e : Ehdr)
    (hbad : elf_header_ok e = false) :
    execve load st task openOk (some e) = (-1, st) := by
  unfold execve
  cases openOk
  · simp
  · simp [hbad]

/-- A header with a corrupted magic (first byte 0 instead of 0x7f)
but otherwise plausible fields. -/
def c8_badhdr : Ehdr :=
  { ident := [0, 0x45, 0x4c, 0x46, 2, 1, 1, 0, 0, 0, 0, 0, 0, 0, 0, 0],
    machine := 183, etype := 2, entry := 0x400000, phoff := 64, shoff := 0,
    phnum := 1, shnum := 0, shstrndx := 0 }

/-- Witness for C8: the bad-magic call returns −1 with the state
unchanged. -/
theorem claim_C8_execve_bad_header_witness :
    execve (fun s _ _ => (0, s)) mmu0 ⟨0⟩ true (some c8_badhdr) = (-1, mmu0) :=
  claim_C8_execve_bad_header (fun s _ _ => (0, s)) mmu0 ⟨0⟩ true c8_badhdr (by decide)

/-! ## IPI delivery (claim C5) -/

theorem sgi_val_intid (cpu kind : Nat) (hk : kind < 16) :
    ((1 <<< 40) ||| (cpu <<< 16) ||| kind) &&& 15 = kind := by
  apply Nat.eq_of_testBit_eq
  intro i
  simp only [Nat.testBit_and, Nat.testBit_or]
  by_cases hi : i < 4
  · have h40 : (1 <<< 40 : Nat).testBit i = false := by
      rw [Nat.testBit_shiftLeft]
      simp [show ¬(i ≥ 40) by omega]
    have h16 : (cpu <<< 16 : Nat).testBit i = false := by
      rw [Nat.testBit_shiftLeft]
      simp [show ¬(i ≥ 16) by omega]
    have h15 : (15 : Nat).testBit i = true := by
      interval_cases i <;> decide
    simp only [h40, h16, h15, Bool.false_or, Bool.and_true]
  · have h15 : (15 : Nat).testBit i = false := Nat.testBit_lt_two_pow (by
      calc (15 : Nat) < 2 ^ 4 := by norm_num
      _ ≤ 2 ^ i := Nat.pow_le_pow_right (by norm_num) (by omega))
    have hkind : kind.testBit i = false := Nat.testBit_lt_two_pow (by
      calc kind < 2 ^ 4 := hk
      _ ≤ 2 ^ i := Nat.pow_le_pow_right (by norm_num) (by omega))
    simp [h15, hkind]

theorem filterMap_guard_length {β : Type} (P : Nat → Prop) [DecidablePred P]
    (g : Nat → β) (l : List Nat) :
    (l.filterMap (fun x => if P x then some (g x) else none)).length =
      (l.filter (fun x => decide (P x))).length := by
  induction l with
  | nil => rfl
  | cons a t ih =>
    by_cases h : P a <;> simp [List.filterMap_cons, List.filter_cons, h, ih]

/-- C5 counterexample: `send_ipi(0b10, IPI_TLB_SHOOTDOWN, 0x5000)`
reaches core 1's handler as a full-TLB invalidation, not the
single-translation invalidation of virtual address 0x5000 the claim
requires for a nonzero argument — the SGI carries no argument and
`irq_handler` invokes `ipi_handler(irq, 0)`. -/
theorem claim_C5_counterexample :
    deliver_ipi 2 IPI_TLB_SHOOTDOWN 0x5000 = [IrqAction.tlbFlushAll] ∧
    IrqAction.tlbFlushAll ≠ IrqAction.tlbFlushPage (0x5000 >>> 12) := by
  constructor
  · decide
  · decide

/-- C5 (amended): each core whose bit (among bits 0..7, `MAX_CPUS` =
8) is set in `target_mask` receives one software-generated interrupt
carrying the kind, but the 64-bit argument is never transmitted — the
delivered actions are independent of `arg`, and every receiving
handler runs `ipi_handler(kind, 0)`: RESCHEDULE still invokes the
local `schedule()`, while TLB_SHOOTDOWN always invalidates the entire
TLB regardless of the argument the sender passed. -/
theorem claim_C5_amended (mask kind arg : Nat) (hk : kind < 16) :
    deliver_ipi mask kind arg = deliver_ipi mask kind 0 ∧
    (deliver_ipi mask kind arg).length =
      ((List.range MAX_CPUS).filter (fun c => decide (mask &&& (1 <<< c) ≠ 0))).length ∧
    (∀ a ∈ deliver_ipi mask kind arg, a = ipi_handler kind 0) ∧
    ipi_handler IPI_TLB_SHOOTDOWN 0 = IrqAction.tlbFlushAll ∧
    ipi_handler IPI_RESCHEDULE 0 = IrqAction.localSchedule := by
  refine ⟨rfl, ?_, ?_, rfl, rfl⟩
  · rw [deliver_ipi, List.length_map]
    exact filterMap_guard_length (fun cpu => mask &&& (1 <<< cpu) ≠ 0) _ _
  · intro a ha
    rw [deliver_ipi, List.mem_map] at ha
    obtain ⟨v, hv, rfl⟩ := ha
    rw [send_ipi, List.mem_filterMap] at hv
    obtain ⟨cpu, _, hcpu⟩ := hv
    have hv' : v = (1 <<< 40) ||| (cpu <<< 16) ||| kind := by
      by_cases h : mask &&& (1 <<< cpu) ≠ 0
      · rw [if_pos h] at hcpu
        exact (Option.some.injEq _ _).mp hcpu |>.symm
      · rw [if_neg h] at hcpu
        exact absurd hcpu (Option.noConfusion)
    subst hv'
    rw [sgi_intid, sgi_val_intid cpu kind hk, irq_handler]
    have h1023 : kind &&& 1023 = kind := by
      have h := Nat.and_pow_two_sub_one_eq_mod kind 10
      norm_num at h
      rw [h]
      omega
    rw [h1023, if_pos (by omega)]

/-- Witness for the amended C5 at a concrete input. -/
theorem claim_C5_amended_witness :
    deliver_ipi 5 IPI_RESCHEDULE 1234 = deliver_ipi 5 IPI_RESCHEDULE 0 ∧
    (∀ a ∈ deliver_ipi 5 IPI_RESCHEDULE 1234, a = ipi_handler IPI_RESCHEDULE 0) :=
  ⟨(claim_C5_amended 5 IPI_RESCHEDULE 1234 (by decide)).1,
   (claim_C5_amended 5 IPI_RESCHEDULE 1234 (by decide)).2.2.1⟩

end Phoenix
